import Mathlib

/-!
Verification development for the SolSplit repository.

SolSplit is a Solana program (plus a TypeScript client and a Next.js UI)
that splits a SOL payment between two recipients according to percentages
fixed at initialization time.  This file gives a shallow embedding of

  * the TypeScript instruction builders `createInitializeSplitInstruction`
    and `createExecuteSplitInstruction` (app/lib/instructions.ts),
  * the test helper `getSplitConfigPDA` (tests/solsplit.ts),
  * the `SplitInterface` React component's state handling
    (app/components/SplitInterface.tsx), and
  * the on-chain state machine (initialize / execute / cancel / close).

The Rust source of the on-chain program is not part of the repository
snapshot; only its README snippets, its tests and its clients are.  The
on-chain operations below are therefore modelled from the specification
(sections 4.2-4.5 of the design document) and from the README's verbatim
Rust snippets; each such definition carries a doc comment saying so.

Machine integers are modelled as `Nat` with explicit bounds or reductions
modulo `2 ^ 64` / `2 ^ 128` exactly where the source casts or could
overflow.  Public keys are modelled as `Nat`; the system program's key
(the all-zero public key) is the constant `0`.
-/

namespace SolSplit

/-! ## Byte-level encoding helpers -/

/-- Little-endian byte encoding of a natural number into a fixed number of
bytes, the semantics of `bn.toArrayLike(Buffer, 'le', len)` for values that
fit in `len` bytes (larger values are reduced modulo `256 ^ len`, where the
JavaScript BN library would instead throw). -/
def bnToLeBytes : Nat → Nat → List Nat
  | 0, _ => []
  | len + 1, n => n % 256 :: bnToLeBytes len (n / 256)

/-- Embedding of the helper `u64ToLeBytes` of app/lib/instructions.ts:
`new BN(num).toArrayLike(Buffer, 'le', 8)`. -/
def u64ToLeBytes (num : Nat) : List Nat :=
  bnToLeBytes 8 num

/-- The ASCII bytes of the fixed PDA tag string, the value of
`Buffer.from('split_config')`. -/
def splitConfigTag : List Nat :=
  [115, 112, 108, 105, 116, 95, 99, 111, 110, 102, 105, 103]

/-- The 32-byte buffer of a public key (`PublicKey.toBuffer()`), with the
key itself modelled as the natural number those bytes denote in
little-endian order. -/
def pubkeyToBuffer (pk : Nat) : List Nat :=
  bnToLeBytes 32 pk

/-- The system program's public key: the all-zero 32-byte key. -/
def systemProgramId : Nat := 0

/-! ## TypeScript instruction builders (app/lib/instructions.ts)

`PublicKey.findProgramAddressSync` is a SHA-256 based derivation; it is not
re-implemented here.  Every statement about derived addresses is made for an
arbitrary derivation function `derive : Nat → List (List Nat) → Nat` taking
the program id and the seed list, which suffices because all derivation
sites in the repository pass their seeds to the very same library function.
-/

/-- One entry of a `TransactionInstruction`'s `keys` array. -/
structure AccountMeta where
  pubkey : Nat
  isSigner : Bool
  isWritable : Bool
deriving DecidableEq, Repr

/-- Embedding of `@solana/web3.js`'s `TransactionInstruction` fields that
the repository constructs. -/
structure TransactionInstruction where
  keys : List AccountMeta
  programId : Nat
  data : List Nat
deriving DecidableEq, Repr

/-- The Anchor instruction discriminator of `initialize_split`, the literal
`DISCRIMINATORS.INITIALIZE_SPLIT` of app/lib/instructions.ts. -/
def initializeSplitTag : List Nat :=
  [53, 17, 92, 9, 84, 151, 173, 78]

/-- The Anchor instruction discriminator of `execute_split`, the literal
`DISCRIMINATORS.EXECUTE_SPLIT` of app/lib/instructions.ts. -/
def executeSplitTag : List Nat :=
  [6, 45, 171, 40, 49, 129, 23, 89]

/-- The PDA seed list built inside `createInitializeSplitInstruction`:
`[Buffer.from('split_config'), sender.toBuffer(), nonceBuffer]` with
`nonceBuffer = u64ToLeBytes(nonce)`. -/
def initializeSplitSeeds (sender nonce : Nat) : List (List Nat) :=
  [splitConfigTag, pubkeyToBuffer sender, u64ToLeBytes nonce]

/-- The PDA seed list built inside `createExecuteSplitInstruction`:
`[Buffer.from('split_config'), sender.toBuffer(), nonceBuffer]` with
`nonceBuffer = u64ToLeBytes(nonce)`. -/
def executeSplitSeeds (sender nonce : Nat) : List (List Nat) :=
  [splitConfigTag, pubkeyToBuffer sender, u64ToLeBytes nonce]

/-- The PDA seed list built by the test helper `getSplitConfigPDA` of
tests/solsplit.ts: `[Buffer.from("split_config"), senderKey.toBuffer(),
new anchor.BN(nonceValue).toArrayLike(Buffer, "le", 8)]`. -/
def getSplitConfigPDASeeds (senderKey nonceValue : Nat) : List (List Nat) :=
  [splitConfigTag, pubkeyToBuffer senderKey, bnToLeBytes 8 nonceValue]

/-- Embedding of `createInitializeSplitInstruction` of
app/lib/instructions.ts, parametrised by the abstract PDA derivation
`derive`.  `Buffer.from([x])` stores `x` reduced modulo 256. -/
def createInitializeSplitInstruction (derive : Nat → List (List Nat) → Nat)
    (programId sender recipient1 recipient2 : Nat)
    (recipient1Percentage recipient2Percentage nonce : Nat) :
    TransactionInstruction :=
  let nonceBuffer := u64ToLeBytes nonce
  let splitConfigPDA := derive programId (initializeSplitSeeds sender nonce)
  { keys :=
      [⟨splitConfigPDA, false, true⟩,
       ⟨sender, true, true⟩,
       ⟨recipient1, false, false⟩,
       ⟨recipient2, false, false⟩,
       ⟨systemProgramId, false, false⟩],
    programId := programId,
    data := initializeSplitTag ++
      [recipient1Percentage % 256, recipient2Percentage % 256] ++ nonceBuffer }

/-- Embedding of `createExecuteSplitInstruction` of
app/lib/instructions.ts, parametrised by the abstract PDA derivation
`derive`. -/
def createExecuteSplitInstruction (derive : Nat → List (List Nat) → Nat)
    (programId sender recipient1 recipient2 : Nat)
    (amount nonce : Nat) :
    TransactionInstruction :=
  let splitConfigPDA := derive programId (executeSplitSeeds sender nonce)
  { keys :=
      [⟨splitConfigPDA, false, true⟩,
       ⟨sender, true, true⟩,
       ⟨recipient1, false, true⟩,
       ⟨recipient2, false, true⟩,
       ⟨systemProgramId, false, false⟩],
    programId := programId,
    data := executeSplitTag ++ bnToLeBytes 8 amount }

/-- Embedding of the test helper `getSplitConfigPDA` of tests/solsplit.ts,
returning the derived address for the seed list it builds. -/
def getSplitConfigPDA (derive : Nat → List (List Nat) → Nat)
    (programId senderKey nonceValue : Nat) : Nat :=
  derive programId (getSplitConfigPDASeeds senderKey nonceValue)

/-! ## The SplitInterface UI component (app/components/SplitInterface.tsx)

Only the state the verified claims depend on is modelled: the nonce
counter, the saved `activeNonce`, the two percentages, and the
config/execute step flag. -/

/-- The React state of `SplitInterface` relevant to nonce handling and
percentage validation.  `stepExecute = false` is the 'config' step,
`stepExecute = true` the 'execute' step. -/
structure UIState where
  nonce : Nat
  activeNonce : Nat
  percentage1 : Nat
  percentage2 : Nat
  stepExecute : Bool
deriving DecidableEq, Repr

/-- Embedding of the successful path of the `initializeSplit` handler of
SplitInterface.tsx: it saves `currentNonce = nonce` into `activeNonce`
before submitting, builds the Initialize instruction with `currentNonce`,
and after on-chain confirmation advances to the execute step and
increments the visible nonce counter.  Returns the new state together
with the instruction that was submitted. -/
def uiInitializeSplit (derive : Nat → List (List Nat) → Nat)
    (programId wallet recipient1 recipient2 : Nat) (s : UIState) :
    UIState × TransactionInstruction :=
  let currentNonce := s.nonce
  ({ s with
      activeNonce := currentNonce,
      stepExecute := true,
      nonce := s.nonce + 1 },
   createInitializeSplitInstruction derive programId wallet
     recipient1 recipient2 s.percentage1 s.percentage2 currentNonce)

/-- Embedding of the `executeSplit` handler of SplitInterface.tsx: it
builds the Execute instruction from the saved `activeNonce`, not from the
(already advanced) `nonce` counter. -/
def uiExecuteSplit (derive : Nat → List (List Nat) → Nat)
    (programId wallet recipient1 recipient2 amount : Nat) (s : UIState) :
    TransactionInstruction :=
  createExecuteSplitInstruction derive programId wallet
    recipient1 recipient2 amount s.activeNonce

/-- Embedding of the percentage slider's `onChange` handler of
SplitInterface.tsx: `setPercentage1(val); setPercentage2(100 - val)`.
The slider is an HTML range input with `min="1"` and `max="99"`, so the
browser only ever delivers integer values in `[1, 99]`; subtraction is on
`Nat`, faithful for such values. -/
def sliderChange (val : Nat) (s : UIState) : UIState :=
  { s with percentage1 := val, percentage2 := 100 - val }

/-- Embedding of `resetForm` of SplitInterface.tsx restricted to the
modelled fields: percentages back to the defaults (60, 40), nonce
incremented, back to the config step. -/
def resetForm (s : UIState) : UIState :=
  { s with
      percentage1 := 60,
      percentage2 := 40,
      nonce := s.nonce + 1,
      stepExecute := false }

/-- Embedding of the `disabled` condition of the Initialize button of
SplitInterface.tsx: `loading || !wallet.publicKey ||
percentage1 + percentage2 !== 100`. -/
def initButtonDisabled (loading walletConnected : Bool)
    (percentage1 percentage2 : Nat) : Bool :=
  loading || !walletConnected || decide (percentage1 + percentage2 ≠ 100)

/-- The percentage states `(percentage1, percentage2)` the UI can reach:
the initial default `(60, 40)` (DEFAULT_PERCENTAGE_1 / _2 of
app/lib/config.ts), any slider change with a value the range input can
deliver, and the reset to the defaults. -/
inductive ReachablePercentages : Nat × Nat → Prop
  | start : ReachablePercentages (60, 40)
  | slider (val : Nat) (p : Nat × Nat) (h1 : 1 ≤ val) (h2 : val ≤ 99)
      (h : ReachablePercentages p) : ReachablePercentages (val, 100 - val)
  | reset (p : Nat × Nat) (h : ReachablePercentages p) :
      ReachablePercentages (60, 40)

/-! ## The on-chain program, modelled from the specification

The Rust source of the Anchor program is not in the repository snapshot.
The definitions below are modelled from the specification (design document
sections 4.2 through 4.5 and section 7's first-failing-check ordering) and
from the verbatim Rust snippets in the repository's README (the replay
guard `require!(!split_config.executed, SplitError::AlreadyExecuted)` and
the u128 checked arithmetic of `execute_split`). -/

/-- The persisted split-configuration record, with the field set of the
README's `SplitConfig` struct extended by the fields the tests read
(`nonce`, `createdAt`, `executedAt`). -/
structure SplitConfig where
  sender : Nat
  recipient1 : Nat
  recipient2 : Nat
  recipient1Percentage : Nat
  recipient2Percentage : Nat
  executed : Bool
  nonce : Nat
  createdAt : Nat
  executedAt : Nat
  bump : Nat
deriving DecidableEq, Repr

/-- The error taxonomy of the program, from the specification's section 7
and the README's error table; `AccountAlreadyExists` stands for the
host-level allocation failure when Initialize hits an occupied address,
`AccountDoesNotExist` for an operation naming an absent record, and
`InsufficientBalance` for the transfer primitive's failure. -/
inductive SplitError where
  | InvalidPercentages
  | ZeroPercentage
  | DuplicateRecipient
  | InvalidRecipient
  | AlreadyExecuted
  | NotExecuted
  | UnauthorizedSender
  | AmountTooSmall
  | ArithmeticOverflow
  | InsufficientBalance
  | AccountAlreadyExists
  | AccountDoesNotExist
deriving DecidableEq, Repr

/-- Modelled from the spec: the fixed protocol constant
`minimumTransferThreshold` (observed value 1000 smallest units; the test
suite sends 500 and expects `AmountTooSmall`, noting 'Below 1000
minimum'). -/
def minimumTransferThreshold : Nat := 1000

/-- Multiplication as Rust's `u128::checked_mul`: `none` exactly when the
product does not fit in 128 bits. -/
def checkedMulU128 (a b : Nat) : Option Nat :=
  if a * b < 2 ^ 128 then some (a * b) else none

/-- Modelled from the spec: the `initialize_split` instruction (design
document section 4.2), whose Rust source is missing from the snapshot.
Checks run in the listed order (section 7: abort on the first failing
check): percentage sum, non-zero shares, distinct recipients, reserved
identity, then allocation at the derived address.  `existing` is the
current content of the derived address; on success the new record is
returned with `executed = false`, `createdAt = clock`. -/
def initializeSplit (existing : Option SplitConfig)
    (sender recipient1 recipient2 : Nat)
    (recipient1Percentage recipient2Percentage nonce : Nat)
    (bump clock : Nat) : Except SplitError SplitConfig :=
  if recipient1Percentage + recipient2Percentage ≠ 100 then
    .error .InvalidPercentages
  else if recipient1Percentage = 0 ∨ recipient2Percentage = 0 then
    .error .ZeroPercentage
  else if recipient1 = recipient2 then
    .error .DuplicateRecipient
  else if recipient1 = systemProgramId ∨ recipient2 = systemProgramId then
    .error .InvalidRecipient
  else if existing.isSome then
    .error .AccountAlreadyExists
  else
    .ok { sender := sender,
          recipient1 := recipient1,
          recipient2 := recipient2,
          recipient1Percentage := recipient1Percentage,
          recipient2Percentage := recipient2Percentage,
          executed := false,
          nonce := nonce,
          createdAt := clock,
          executedAt := 0,
          bump := bump }

/-- Modelled from the spec: the `execute_split` instruction (design
document section 4.3), whose Rust source is missing from the snapshot.
Checks run in the listed order: the replay guard on `executed` (the
README's verbatim snippet), authorization, recipient cross-validation,
the minimum amount, then the README's u128 checked arithmetic
`amount1 = ((amount as u128) * share1 / 100) as u64`,
`amount2 = amount - amount1`, then the transfer primitive (which fails on
insufficient balance).  On success it returns the updated record
(`executed = true`, `executedAt = clock`) together with the two amounts
paid to `recipient1` and `recipient2`. -/
def executeSplit (cfg : SplitConfig) (caller recipient1 recipient2 : Nat)
    (amount senderBalance clock : Nat) :
    Except SplitError (SplitConfig × Nat × Nat) :=
  if cfg.executed then
    .error .AlreadyExecuted
  else if caller ≠ cfg.sender then
    .error .UnauthorizedSender
  else if recipient1 ≠ cfg.recipient1 ∨ recipient2 ≠ cfg.recipient2 then
    .error .InvalidRecipient
  else if amount < minimumTransferThreshold then
    .error .AmountTooSmall
  else
    match checkedMulU128 amount cfg.recipient1Percentage with
    | none => .error .ArithmeticOverflow
    | some product =>
      let amount1 := product / 100 % 2 ^ 64
      let amount2 := amount - amount1
      if senderBalance < amount then
        .error .InsufficientBalance
      else
        .ok ({ cfg with executed := true, executedAt := clock },
             amount1, amount2)

/-- Modelled from the spec: the `cancel_split` instruction (design
document section 4.4), whose Rust source is missing from the snapshot.
Preconditions in the listed order: the record exists, the caller is the
owner, the record is unexecuted.  On success the record is destroyed and
the storage deposit `rent` is credited back to the owner's balance. -/
def cancelSplit (record : Option SplitConfig) (rent : Nat)
    (balances : Nat → Nat) (caller : Nat) :
    Except SplitError (Option SplitConfig × (Nat → Nat)) :=
  match record with
  | none => .error .AccountDoesNotExist
  | some cfg =>
    if caller ≠ cfg.sender then
      .error .UnauthorizedSender
    else if cfg.executed then
      .error .AlreadyExecuted
    else
      .ok (none, fun k => if k = cfg.sender then balances k + rent else balances k)

/-- Modelled from the spec: the `close_split` instruction (design document
section 4.5), whose Rust source is missing from the snapshot.
Preconditions in the listed order: the record exists, the caller is the
owner, the record is executed.  On success the record is destroyed and
the storage deposit `rent` is credited back to the owner's balance. -/
def closeSplit (record : Option SplitConfig) (rent : Nat)
    (balances : Nat → Nat) (caller : Nat) :
    Except SplitError (Option SplitConfig × (Nat → Nat)) :=
  match record with
  | none => .error .AccountDoesNotExist
  | some cfg =>
    if caller ≠ cfg.sender then
      .error .UnauthorizedSender
    else if ¬ cfg.executed then
      .error .NotExecuted
    else
      .ok (none, fun k => if k = cfg.sender then balances k + rent else balances k)

/-- A mutation step of a live record.  Initialize creates a record, Cancel
and Close destroy one; Execute is the only operation that changes an
existing record's fields while keeping it alive, so a step between live
records is exactly a successful `executeSplit`. -/
inductive RecordStep : SplitConfig → SplitConfig → Prop
  | exec (cfg cfgNew : SplitConfig)
      (caller recipient1 recipient2 amount senderBalance clock a1 a2 : Nat)
      (h : executeSplit cfg caller recipient1 recipient2 amount senderBalance
             clock = .ok (cfgNew, a1, a2)) :
      RecordStep cfg cfgNew


/-! ## Theorems -/

lemma bnToLeBytes_length : ∀ (len n : Nat), (bnToLeBytes len n).length = len := by
  intro len
  induction len with
  | zero => intro n; rfl
  | succ k ih => intro n; simp [bnToLeBytes, ih]

/-- Claim C3: the record address is a pure deterministic function of
(owner, sequence), derived from the fixed tag "split_config" concatenated
with the owner's key buffer and the sequence encoded as a fixed-width
8-byte little-endian integer; the three independent derivations — inside
`createInitializeSplitInstruction`, inside `createExecuteSplitInstruction`
and in the test helper `getSplitConfigPDA` — build identical seed lists
and hence compute the same address under any derivation function, for
every (owner, sequence) pair. -/
theorem pda_derivations_agree
    (derive : Nat → List (List Nat) → Nat)
    (programId owner sequence recipient1 recipient2 p1 p2 amount : Nat) :
    initializeSplitSeeds owner sequence =
      [splitConfigTag, pubkeyToBuffer owner, bnToLeBytes 8 sequence] ∧
    splitConfigTag = [115, 112, 108, 105, 116, 95, 99, 111, 110, 102, 105, 103] ∧
    (bnToLeBytes 8 sequence).length = 8 ∧
    initializeSplitSeeds owner sequence = executeSplitSeeds owner sequence ∧
    initializeSplitSeeds owner sequence = getSplitConfigPDASeeds owner sequence ∧
    ((createInitializeSplitInstruction derive programId owner recipient1
        recipient2 p1 p2 sequence).keys.map AccountMeta.pubkey).head? =
      some (getSplitConfigPDA derive programId owner sequence) ∧
    ((createExecuteSplitInstruction derive programId owner recipient1
        recipient2 amount sequence).keys.map AccountMeta.pubkey).head? =
      some (getSplitConfigPDA derive programId owner sequence) :=
  ⟨rfl, rfl, bnToLeBytes_length 8 sequence, rfl, rfl, rfl, rfl⟩

/-- Claim C4: for every input, the Initialize instruction data is exactly
the 8-byte discriminator followed by share1 as u8, share2 as u8 and the
sequence as a u64 little-endian integer, 18 bytes in total; the Execute
instruction data is exactly the 8-byte discriminator followed by the
amount as a u64 little-endian integer, 16 bytes in total. -/
theorem instruction_data_layout
    (derive : Nat → List (List Nat) → Nat)
    (programId sender recipient1 recipient2 : Nat)
    (share1 share2 sequence amount : Nat)
    (h1 : share1 < 256) (h2 : share2 < 256) :
    (createInitializeSplitInstruction derive programId sender recipient1
        recipient2 share1 share2 sequence).data =
      initializeSplitTag ++ [share1, share2] ++ bnToLeBytes 8 sequence ∧
    (createInitializeSplitInstruction derive programId sender recipient1
        recipient2 share1 share2 sequence).data.length = 18 ∧
    initializeSplitTag.length = 8 ∧
    (bnToLeBytes 8 sequence).length = 8 ∧
    (createExecuteSplitInstruction derive programId sender recipient1
        recipient2 amount sequence).data =
      executeSplitTag ++ bnToLeBytes 8 amount ∧
    (createExecuteSplitInstruction derive programId sender recipient1
        recipient2 amount sequence).data.length = 16 ∧
    executeSplitTag.length = 8 := by
  refine ⟨?_, ?_, rfl, bnToLeBytes_length 8 sequence, rfl, ?_, rfl⟩
  · simp [createInitializeSplitInstruction, u64ToLeBytes, initializeSplitTag,
      Nat.mod_eq_of_lt h1, Nat.mod_eq_of_lt h2]
  · simp [createInitializeSplitInstruction, u64ToLeBytes, initializeSplitTag,
      bnToLeBytes_length]
  · simp [createExecuteSplitInstruction, executeSplitTag, bnToLeBytes_length]

theorem instruction_data_layout_witness :
    (53 : Nat) < 256 ∧ (60 : Nat) < 256 ∧ (40 : Nat) < 256 ∧
    (createInitializeSplitInstruction (fun _ _ => 0) 7 1 2 3 60 40 5).data =
      initializeSplitTag ++ [60, 40] ++ bnToLeBytes 8 5 ∧
    (createInitializeSplitInstruction (fun _ _ => 0) 7 1 2 3 60 40 5).data.length = 18 ∧
    (createExecuteSplitInstruction (fun _ _ => 0) 7 1 2 3 1000 5).data.length = 16 := by
  have h := instruction_data_layout (fun _ _ => 0) 7 1 2 3 60 40 5 1000
    (by decide) (by decide)
  exact ⟨by decide, by decide, by decide, h.1, h.2.1, h.2.2.2.2.2.1⟩

/-- Claim C5 counterexample: the claim states that recipient2 is named
only by Execute and the system allocator only by Initialize, but at the
concrete input (pda 10, owner 1, recipient1 2, recipient2 3) the
Initialize key list also names recipient2 (= 3) and the Execute key list
also names the system program (= `systemProgramId`). -/
theorem account_ordering_cex :
    ((createInitializeSplitInstruction (fun _ _ => 10) 7 1 2 3 60 40 0).keys.map
      AccountMeta.pubkey) = [10, 1, 2, 3, 0] ∧
    3 ∈ ((createInitializeSplitInstruction (fun _ _ => 10) 7 1 2 3 60 40 0).keys.map
      AccountMeta.pubkey) ∧
    ((createExecuteSplitInstruction (fun _ _ => 10) 7 1 2 3 5000 0).keys.map
      AccountMeta.pubkey) = [10, 1, 2, 3, 0] ∧
    systemProgramId ∈ ((createExecuteSplitInstruction (fun _ _ => 10) 7 1 2 3 5000 0).keys.map
      AccountMeta.pubkey) := by
  refine ⟨rfl, ?_, rfl, ?_⟩ <;> decide

/-- Claim C5 amended: both Initialize and Execute name, in a fixed order,
the derived record address, the owner, recipient1, recipient2 and the
system allocator — recipient2 and the system allocator appear in the key
lists of both operations, not of just one. -/
theorem account_ordering_amended
    (derive : Nat → List (List Nat) → Nat)
    (programId sender recipient1 recipient2 p1 p2 sequence amount : Nat) :
    (createInitializeSplitInstruction derive programId sender recipient1
        recipient2 p1 p2 sequence).keys.map AccountMeta.pubkey =
      [derive programId (initializeSplitSeeds sender sequence), sender,
       recipient1, recipient2, systemProgramId] ∧
    (createExecuteSplitInstruction derive programId sender recipient1
        recipient2 amount sequence).keys.map AccountMeta.pubkey =
      [derive programId (executeSplitSeeds sender sequence), sender,
       recipient1, recipient2, systemProgramId] :=
  ⟨rfl, rfl⟩

/-- Claim C9: the UI's `initializeSplit` records the nonce it submits in
`activeNonce` before incrementing the visible nonce counter, and
`executeSplit` derives its record address from `activeNonce`; hence the
Execute instruction carries exactly the derived address key that the
immediately preceding Initialize instruction created, even though the
nonce counter has since advanced. -/
theorem ui_execute_targets_initialized_address
    (derive : Nat → List (List Nat) → Nat)
    (programId wallet recipient1 recipient2 r1x r2x amount : Nat) (s : UIState) :
    (uiInitializeSplit derive programId wallet recipient1 recipient2 s).1.activeNonce = s.nonce ∧
    (uiInitializeSplit derive programId wallet recipient1 recipient2 s).1.nonce = s.nonce + 1 ∧
    (uiInitializeSplit derive programId wallet recipient1 recipient2 s).1.nonce ≠
      (uiInitializeSplit derive programId wallet recipient1 recipient2 s).1.activeNonce ∧
    ((uiExecuteSplit derive programId wallet r1x r2x amount
        (uiInitializeSplit derive programId wallet recipient1 recipient2 s).1).keys.map
        AccountMeta.pubkey).head? =
      (((uiInitializeSplit derive programId wallet recipient1 recipient2 s).2).keys.map
        AccountMeta.pubkey).head? := by
  refine ⟨rfl, rfl, ?_, rfl⟩
  simp [uiInitializeSplit]

/-- Claim C10: every slider change sets percentage1 to an integer in
[1, 99] and percentage2 to exactly 100 - percentage1; the Initialize
button is disabled whenever the percentages do not sum to 100; and every
percentage state the UI can reach from the default (60, 40) has two
positive shares summing to exactly 100. -/
theorem slider_keeps_percentages_valid :
    (∀ (val : Nat) (s : UIState), 1 ≤ val → val ≤ 99 →
      (sliderChange val s).percentage1 = val ∧
      (sliderChange val s).percentage2 = 100 - (sliderChange val s).percentage1 ∧
      1 ≤ (sliderChange val s).percentage1 ∧ (sliderChange val s).percentage1 ≤ 99) ∧
    (∀ (loading walletConnected : Bool) (p1 p2 : Nat),
      p1 + p2 ≠ 100 → initButtonDisabled loading walletConnected p1 p2 = true) ∧
    (∀ p : Nat × Nat, ReachablePercentages p →
      0 < p.1 ∧ 0 < p.2 ∧ p.1 + p.2 = 100) := by
  refine ⟨?_, ?_, ?_⟩
  · intro val s h1 h2
    refine ⟨rfl, ?_, h1, h2⟩
    simp [sliderChange]
  · intro loading walletConnected p1 p2 hp
    simp [initButtonDisabled, hp]
  · intro p hp
    induction hp with
    | start => exact ⟨by decide, by decide, by decide⟩
    | slider val p h1 h2 h ih => exact ⟨h1, by omega, by omega⟩
    | reset p h ih => exact ⟨by decide, by decide, by decide⟩

theorem slider_keeps_percentages_valid_witness :
    ((sliderChange 33 ⟨0, 0, 60, 40, false⟩).percentage1 = 33 ∧
      (sliderChange 33 ⟨0, 0, 60, 40, false⟩).percentage2 =
        100 - (sliderChange 33 ⟨0, 0, 60, 40, false⟩).percentage1 ∧
      1 ≤ (sliderChange 33 ⟨0, 0, 60, 40, false⟩).percentage1 ∧
      (sliderChange 33 ⟨0, 0, 60, 40, false⟩).percentage1 ≤ 99) ∧
    initButtonDisabled false true 50 30 = true ∧
    (0 < (60, 40).1 ∧ 0 < (60, 40).2 ∧ (60, 40).1 + (60, 40).2 = 100) :=
  ⟨slider_keeps_percentages_valid.1 33 ⟨0, 0, 60, 40, false⟩ (by decide) (by decide),
   slider_keeps_percentages_valid.2.1 false true 50 30 (by decide),
   slider_keeps_percentages_valid.2.2 (60, 40) ReachablePercentages.start⟩


lemma executeSplit_ok_inv {cfg cfgNew : SplitConfig}
    {caller recipient1 recipient2 amount senderBalance clock a1 a2 : Nat}
    (h : executeSplit cfg caller recipient1 recipient2 amount senderBalance clock =
      .ok (cfgNew, a1, a2)) :
    cfg.executed = false ∧ cfgNew.executed = true := by
  unfold executeSplit at h
  split at h
  · exact absurd h (by simp)
  next hexec =>
    refine ⟨by simpa using hexec, ?_⟩
    split at h
    · exact absurd h (by simp)
    split at h
    · exact absurd h (by simp)
    split at h
    · exact absurd h (by simp)
    split at h
    · exact absurd h (by simp)
    split at h
    · exact absurd h (by simp)
    simp only [Except.ok.injEq, Prod.mk.injEq] at h
    obtain ⟨hcfg, _⟩ := h
    subst hcfg
    rfl

/-- Claim C1: for every record with shares summing to 100, both positive,
and every u64 amount at or above `minimumTransferThreshold` (covered by
the owner's balance), Execute succeeds — the u128 intermediate product
never overflows — and pays recipient1 exactly
amount1 = floor(amount * share1 / 100) and recipient2 exactly
amount2 = amount - amount1, so amount1 + amount2 = amount: no value is
created or destroyed. -/
theorem execute_split_conserves_amount
    (cfg : SplitConfig) (amount senderBalance clock : Nat)
    (hexec : cfg.executed = false)
    (hsum : cfg.recipient1Percentage + cfg.recipient2Percentage = 100)
    (hp1 : 0 < cfg.recipient1Percentage)
    (hp2 : 0 < cfg.recipient2Percentage)
    (hamt : amount < 2 ^ 64)
    (hmin : minimumTransferThreshold ≤ amount)
    (hbal : amount ≤ senderBalance) :
    executeSplit cfg cfg.sender cfg.recipient1 cfg.recipient2 amount
        senderBalance clock =
      .ok ({ cfg with executed := true, executedAt := clock },
           amount * cfg.recipient1Percentage / 100,
           amount - amount * cfg.recipient1Percentage / 100) ∧
    amount * cfg.recipient1Percentage / 100 ≤ amount ∧
    amount * cfg.recipient1Percentage / 100 +
      (amount - amount * cfg.recipient1Percentage / 100) = amount := by
  have hple : cfg.recipient1Percentage ≤ 100 := by omega
  have hle100 : amount * cfg.recipient1Percentage ≤ amount * 100 :=
    Nat.mul_le_mul (le_refl amount) hple
  have hmul : amount * cfg.recipient1Percentage < 2 ^ 128 := by
    calc amount * cfg.recipient1Percentage ≤ amount * 100 := hle100
      _ ≤ (2 ^ 64 - 1) * 100 := Nat.mul_le_mul (by omega) (le_refl 100)
      _ < 2 ^ 128 := by norm_num
  have ha1le : amount * cfg.recipient1Percentage / 100 ≤ amount := by omega
  have hmod : amount * cfg.recipient1Percentage / 100 % 2 ^ 64 =
      amount * cfg.recipient1Percentage / 100 :=
    Nat.mod_eq_of_lt (lt_of_le_of_lt ha1le hamt)
  have hnotmin : ¬ amount < minimumTransferThreshold := Nat.not_lt.mpr hmin
  have hnotbal : ¬ senderBalance < amount := Nat.not_lt.mpr hbal
  have hmul2 := hmul
  have hamt2 := hamt
  norm_num at hmul2 hamt2
  have hmod2 : amount * cfg.recipient1Percentage / 100 % 18446744073709551616 =
      amount * cfg.recipient1Percentage / 100 :=
    Nat.mod_eq_of_lt (lt_of_le_of_lt ha1le hamt2)
  refine ⟨?_, ha1le, by omega⟩
  simp [executeSplit, hexec, checkedMulU128, hmul2, hnotmin, hnotbal, hmod2]

theorem execute_split_conserves_amount_witness :
    executeSplit ⟨1, 2, 3, 33, 67, false, 0, 5, 0, 255⟩ 1 2 3 1000 1000000 7 =
      .ok (⟨1, 2, 3, 33, 67, true, 0, 5, 7, 255⟩, 330, 670) ∧
    (330 : Nat) + 670 = 1000 := by
  have h := execute_split_conserves_amount ⟨1, 2, 3, 33, 67, false, 0, 5, 0, 255⟩
    1000 1000000 7 rfl (by decide) (by decide) (by decide) (by decide)
    (by decide) (by decide)
  exact ⟨h.1, by decide⟩

/-- Claim C2: the executed flag only ever transitions from false to true
(the only mutation of a live record is a successful Execute, which
requires executed = false and leaves executed = true), and every Execute
against a record whose executed flag is already true fails with
AlreadyExecuted regardless of the amount and performs no transfers (an
error result carries no state update and no payout amounts). -/
theorem executed_flag_monotone :
    (∀ cfg cfgNew : SplitConfig, RecordStep cfg cfgNew →
      cfg.executed = false ∧ cfgNew.executed = true) ∧
    (∀ (cfg : SplitConfig)
        (caller recipient1 recipient2 amount senderBalance clock : Nat),
      cfg.executed = true →
      executeSplit cfg caller recipient1 recipient2 amount senderBalance clock =
        .error .AlreadyExecuted) := by
  constructor
  · intro cfg cfgNew hstep
    cases hstep with
    | exec caller r1 r2 amount bal clock a1 a2 h => exact executeSplit_ok_inv h
  · intro cfg caller r1 r2 amount bal clock h
    simp [executeSplit, h]

theorem executed_flag_monotone_witness :
    ((⟨1, 2, 3, 60, 40, false, 0, 5, 0, 255⟩ : SplitConfig).executed = false ∧
      (⟨1, 2, 3, 60, 40, true, 0, 5, 9, 255⟩ : SplitConfig).executed = true) ∧
    executeSplit ⟨1, 2, 3, 60, 40, true, 0, 5, 9, 255⟩ 1 2 3 1000000000 2000000000 11 =
      .error .AlreadyExecuted :=
  ⟨executed_flag_monotone.1 (⟨1, 2, 3, 60, 40, false, 0, 5, 0, 255⟩ : SplitConfig)
      (⟨1, 2, 3, 60, 40, true, 0, 5, 9, 255⟩ : SplitConfig)
      (RecordStep.exec (⟨1, 2, 3, 60, 40, false, 0, 5, 0, 255⟩ : SplitConfig)
        (⟨1, 2, 3, 60, 40, true, 0, 5, 9, 255⟩ : SplitConfig)
        1 2 3 1000000000 2000000000 9 600000000 400000000 rfl),
   executed_flag_monotone.2 (⟨1, 2, 3, 60, 40, true, 0, 5, 9, 255⟩ : SplitConfig)
     1 2 3 1000000000 2000000000 11 rfl⟩

/-- Claim C6: Initialize succeeds exactly when the shares sum to 100 and
are both positive, the recipients are distinct, neither recipient is the
reserved system identity, and no record exists at the derived address; on
success the persisted shares equal the inputs exactly and the record
starts unexecuted; otherwise it fails with the matching error —
InvalidPercentages when the sum is not 100, ZeroPercentage when either
share is 0, DuplicateRecipient when the recipients are equal,
InvalidRecipient when a reserved identity is used — and no record is
created (an error result carries no record). -/
theorem initialize_split_validation
    (existing : Option SplitConfig) (sender recipient1 recipient2 : Nat)
    (p1 p2 nonce bump clock : Nat) :
    ((∃ cfg, initializeSplit existing sender recipient1 recipient2 p1 p2
        nonce bump clock = .ok cfg) ↔
      (p1 + p2 = 100 ∧ 0 < p1 ∧ 0 < p2 ∧ recipient1 ≠ recipient2 ∧
        recipient1 ≠ systemProgramId ∧ recipient2 ≠ systemProgramId ∧
        existing = none)) ∧
    (∀ cfg, initializeSplit existing sender recipient1 recipient2 p1 p2
        nonce bump clock = .ok cfg →
      cfg.recipient1Percentage = p1 ∧ cfg.recipient2Percentage = p2 ∧
      cfg.sender = sender ∧ cfg.recipient1 = recipient1 ∧
      cfg.recipient2 = recipient2 ∧ cfg.executed = false) ∧
    (p1 + p2 ≠ 100 →
      initializeSplit existing sender recipient1 recipient2 p1 p2 nonce bump clock =
        .error .InvalidPercentages) ∧
    (p1 + p2 = 100 → (p1 = 0 ∨ p2 = 0) →
      initializeSplit existing sender recipient1 recipient2 p1 p2 nonce bump clock =
        .error .ZeroPercentage) ∧
    (p1 + p2 = 100 → 0 < p1 → 0 < p2 → recipient1 = recipient2 →
      initializeSplit existing sender recipient1 recipient2 p1 p2 nonce bump clock =
        .error .DuplicateRecipient) ∧
    (p1 + p2 = 100 → 0 < p1 → 0 < p2 → recipient1 ≠ recipient2 →
      (recipient1 = systemProgramId ∨ recipient2 = systemProgramId) →
      initializeSplit existing sender recipient1 recipient2 p1 p2 nonce bump clock =
        .error .InvalidRecipient) := by
  refine ⟨?_, ?_, ?_, ?_, ?_, ?_⟩
  · unfold initializeSplit
    split_ifs with h1 h2 h3 h4 h5
    · simp [h1]
    · constructor
      · intro h; exact absurd h (by simp)
      · intro h; omega
    · constructor
      · intro h; exact absurd h (by simp)
      · intro h; exact absurd h3 (by tauto)
    · constructor
      · intro h; exact absurd h (by simp)
      · intro h; exact absurd h4 (by tauto)
    · constructor
      · intro h; exact absurd h (by simp)
      · intro h
        rcases h with ⟨_, _, _, _, _, _, hnone⟩
        rw [hnone] at h5
        simp at h5
    · constructor
      · intro _
        refine ⟨by omega, by omega, by omega, h3, ?_, ?_, ?_⟩
        · intro hc; exact h4 (Or.inl hc)
        · intro hc; exact h4 (Or.inr hc)
        · exact Option.not_isSome_iff_eq_none.mp h5
      · intro _; exact ⟨_, rfl⟩
  · intro cfg h
    unfold initializeSplit at h
    split_ifs at h
    simp only [Except.ok.injEq] at h
    subst h
    exact ⟨rfl, rfl, rfl, rfl, rfl, rfl⟩
  · intro h
    unfold initializeSplit
    rw [if_pos h]
  · intro hs hz
    unfold initializeSplit
    rw [if_neg (by omega), if_pos hz]
  · intro hs hz1 hz2 hr
    unfold initializeSplit
    rw [if_neg (by omega), if_neg (by omega), if_pos hr]
  · intro hs hz1 hz2 hr hsys
    unfold initializeSplit
    rw [if_neg (by omega), if_neg (by omega), if_neg hr, if_pos hsys]

theorem initialize_split_validation_witness :
    (∃ cfg, initializeSplit none 1 2 3 60 40 0 255 5 = .ok cfg) ∧
    initializeSplit none 1 2 3 50 30 0 255 5 = .error .InvalidPercentages ∧
    initializeSplit none 1 2 2 50 50 0 255 5 = .error .DuplicateRecipient ∧
    (∀ cfg, initializeSplit none 1 2 3 60 40 0 255 5 = .ok cfg →
      cfg.recipient1Percentage = 60 ∧ cfg.recipient2Percentage = 40 ∧
      cfg.sender = 1 ∧ cfg.recipient1 = 2 ∧ cfg.recipient2 = 3 ∧
      cfg.executed = false) := by
  have h := initialize_split_validation none 1 2 3 60 40 0 255 5
  have h2 := initialize_split_validation none 1 2 3 50 30 0 255 5
  have h3 := initialize_split_validation none 1 2 2 50 50 0 255 5
  exact ⟨h.1.mpr ⟨by decide, by decide, by decide, by decide, by decide,
      by decide, rfl⟩,
    h2.2.2.1 (by decide),
    h3.2.2.2.2.1 (by decide) (by decide) (by decide) rfl,
    h.2.1⟩

/-- Claim C7 counterexample: the claim states that every Execute by a
caller other than the owner fails with UnauthorizedSender, but on a
record whose executed flag is already true (owner 1, caller 99) Execute
fails with AlreadyExecuted, not UnauthorizedSender, because the replay
guard on the executed flag runs before the authorization check (design
document section 4.3 lists the preconditions in that order and section 7
mandates aborting on the first failing check; the README shows the
executed guard as the leading require of execute_split). -/
theorem unauthorized_caller_cex :
    (99 : Nat) ≠ (SplitConfig.sender ⟨1, 2, 3, 60, 40, true, 0, 5, 6, 255⟩) ∧
    executeSplit ⟨1, 2, 3, 60, 40, true, 0, 5, 6, 255⟩ 99 2 3 10000000 1000000000 7 =
      .error .AlreadyExecuted ∧
    SplitError.AlreadyExecuted ≠ SplitError.UnauthorizedSender :=
  ⟨by decide, rfl, by decide⟩

/-- Claim C7 amended: for every record and every caller other than the
record's owner, Cancel and Close always fail with UnauthorizedSender, and
Execute fails with UnauthorizedSender whenever the record is unexecuted
and with AlreadyExecuted when it is already executed; in every case the
operation returns an error, so no record mutation and no transfer
occurs. -/
theorem unauthorized_caller_amended
    (cfg : SplitConfig) (rent : Nat) (balances : Nat → Nat)
    (caller recipient1 recipient2 amount senderBalance clock : Nat)
    (hcaller : caller ≠ cfg.sender) :
    cancelSplit (some cfg) rent balances caller = .error .UnauthorizedSender ∧
    closeSplit (some cfg) rent balances caller = .error .UnauthorizedSender ∧
    (cfg.executed = false →
      executeSplit cfg caller recipient1 recipient2 amount senderBalance clock =
        .error .UnauthorizedSender) ∧
    (cfg.executed = true →
      executeSplit cfg caller recipient1 recipient2 amount senderBalance clock =
        .error .AlreadyExecuted) := by
  refine ⟨?_, ?_, ?_, ?_⟩
  · simp [cancelSplit, hcaller]
  · simp [closeSplit, hcaller]
  · intro hexec; simp [executeSplit, hexec, hcaller]
  · intro hexec; simp [executeSplit, hexec]

theorem unauthorized_caller_amended_witness :
    cancelSplit (some ⟨1, 2, 3, 60, 40, false, 0, 5, 0, 255⟩) 100 (fun _ => 0) 99 =
      .error .UnauthorizedSender ∧
    closeSplit (some ⟨1, 2, 3, 60, 40, false, 0, 5, 0, 255⟩) 100 (fun _ => 0) 99 =
      .error .UnauthorizedSender ∧
    executeSplit ⟨1, 2, 3, 60, 40, false, 0, 5, 0, 255⟩ 99 2 3 10000000 1000000000 7 =
      .error .UnauthorizedSender ∧
    executeSplit ⟨1, 2, 3, 60, 40, true, 0, 5, 6, 255⟩ 99 2 3 10000000 1000000000 7 =
      .error .AlreadyExecuted := by
  have h1 := unauthorized_caller_amended ⟨1, 2, 3, 60, 40, false, 0, 5, 0, 255⟩
    100 (fun _ => 0) 99 2 3 10000000 1000000000 7 (by decide)
  have h2 := unauthorized_caller_amended ⟨1, 2, 3, 60, 40, true, 0, 5, 6, 255⟩
    100 (fun _ => 0) 99 2 3 10000000 1000000000 7 (by decide)
  exact ⟨h1.1, h1.2.1, h1.2.2.1 rfl, h2.2.2.2 rfl⟩

/-- Claim C8: for an existing record with an authorized caller, Cancel
succeeds if and only if executed = false, failing with AlreadyExecuted
when executed = true, and Close succeeds if and only if executed = true,
failing with NotExecuted when executed = false; on success both destroy
the record (the stored record becomes `none`) and credit the storage
deposit back to the owner's balance. -/
theorem cancel_close_lifecycle
    (cfg : SplitConfig) (rent : Nat) (balances : Nat → Nat) (caller : Nat)
    (hcaller : caller = cfg.sender) :
    ((∃ st, cancelSplit (some cfg) rent balances caller = .ok st) ↔
      cfg.executed = false) ∧
    (cfg.executed = true →
      cancelSplit (some cfg) rent balances caller = .error .AlreadyExecuted) ∧
    (cfg.executed = false →
      cancelSplit (some cfg) rent balances caller =
        .ok (none, fun k => if k = cfg.sender then balances k + rent else balances k)) ∧
    ((∃ st, closeSplit (some cfg) rent balances caller = .ok st) ↔
      cfg.executed = true) ∧
    (cfg.executed = false →
      closeSplit (some cfg) rent balances caller = .error .NotExecuted) ∧
    (cfg.executed = true →
      closeSplit (some cfg) rent balances caller =
        .ok (none, fun k => if k = cfg.sender then balances k + rent else balances k)) := by
  subst hcaller
  by_cases hexec : cfg.executed = true
  · refine ⟨?_, ?_, ?_, ?_, ?_, ?_⟩ <;>
      simp [cancelSplit, closeSplit, hexec]
  · have hfalse : cfg.executed = false := by
      cases h : cfg.executed
      · rfl
      · exact absurd h hexec
    refine ⟨?_, ?_, ?_, ?_, ?_, ?_⟩ <;>
      simp [cancelSplit, closeSplit, hfalse]

theorem cancel_close_lifecycle_witness :
    ((∃ st, cancelSplit (some ⟨1, 2, 3, 60, 40, false, 0, 5, 0, 255⟩) 100
        (fun _ => 500) 1 = .ok st) ↔
      (⟨1, 2, 3, 60, 40, false, 0, 5, 0, 255⟩ : SplitConfig).executed = false) ∧
    closeSplit (some ⟨1, 2, 3, 60, 40, false, 0, 5, 0, 255⟩) 100 (fun _ => 500) 1 =
      .error .NotExecuted ∧
    cancelSplit (some ⟨1, 2, 3, 60, 40, true, 0, 5, 6, 255⟩) 100 (fun _ => 500) 1 =
      .error .AlreadyExecuted ∧
    (∃ st, closeSplit (some ⟨1, 2, 3, 60, 40, true, 0, 5, 6, 255⟩) 100
      (fun _ => 500) 1 = .ok st) := by
  have hf := cancel_close_lifecycle ⟨1, 2, 3, 60, 40, false, 0, 5, 0, 255⟩ 100
    (fun _ => 500) 1 rfl
  have ht := cancel_close_lifecycle ⟨1, 2, 3, 60, 40, true, 0, 5, 6, 255⟩ 100
    (fun _ => 500) 1 rfl
  exact ⟨hf.1, hf.2.2.2.2.1 rfl, ht.2.1 rfl, ht.2.2.2.1.mpr rfl⟩


end SolSplit
